import Mathlib

/-!
Verification of the SIR epidemic simulator (`source/SIR.py`).

The executable part of the development embeds the Python module shallowly:
Python numbers become rationals, Python runtime values that flow through the
validation code become an inductive `Pyv` type, Python exceptions become the
`PyErr` type, and each method of the `SIR` class becomes a Lean function
returning `Except PyErr`.  The only piece of behaviour that is not code of
the module itself is `scipy.integrate.odeint`; its numerical contract is
modelled from the spec as exact sampling of a solution of the initial value
problem (`IsSIRSolution`, `odeintSpec` below).
-/

/-- Model of the Python runtime values that reach the validation code of the
module: ints, floats (modelled as rationals), strings, tuples, lists, `None`,
and one-dimensional numpy arrays of floats. -/
inductive Pyv where
  | pint : Int → Pyv
  | pfloat : Rat → Pyv
  | pstr : String → Pyv
  | ptuple : List Pyv → Pyv
  | plist : List Pyv → Pyv
  | pnone : Pyv
  | pndarray : List Rat → Pyv

/-- Model of the Python exception classes raised by the module. -/
inductive PyErr where
  | typeError
  | valueError
  | zeroDivisionError
  | keyError
deriving DecidableEq, Repr

/-- Model of `isinstance(v, (tuple, list))`, the check on line 26 and line 52 of
`SIR.py`. -/
def isSeq : Pyv → Bool
  | .ptuple _ => true
  | .plist _ => true
  | _ => false

/-- Model of `isinstance(v, (int, float))`, the numeric checks of `SIR.py`. -/
def isNum : Pyv → Bool
  | .pint _ => true
  | .pfloat _ => true
  | _ => false

/-- Model of `isinstance(v, np.ndarray)` for the `time_grid` check on line 59. -/
def isNdarray : Pyv → Bool
  | .pndarray _ => true
  | _ => false

/-- The numeric content of an int or float Python value. -/
def toRat : Pyv → Option Rat
  | .pint n => some (n : Rat)
  | .pfloat q => some q
  | _ => none

/-- The elements of a tuple or a list (empty for every other value). -/
def seqElems : Pyv → List Pyv
  | .ptuple l => l
  | .plist l => l
  | _ => []

/-- A Python keyword dictionary: an association list from names to values. -/
def Dict : Type := List (String × Pyv)

/-- Lookup `d[k]` returning the first binding of `k`, `none` when absent. -/
def dictGet (d : Dict) (k : String) : Option Pyv :=
  (List.find? (fun p => p.1 == k) d).map (fun p => p.2)

/-- Assignment `d[k] = v`: drop every binding of `k` and append the new one.  Only the
lookup semantics matters for the module, not the iteration order. -/
def dictSet (d : Dict) (k : String) (v : Pyv) : Dict :=
  List.filter (fun p => p.1 != k) d ++ [(k, v)]

/-- The Python merge `{**d, **kw}` (line 24 of `SIR.py`): entries of `kw`
override entries of `d` key-by-key, processed left to right. -/
def dictMerge (d kw : Dict) : Dict :=
  List.foldl (fun acc p => dictSet acc p.1 p.2) d kw

/-- The module-level `default_kwargs` of `SIR.py` (lines 7-11). -/
def default_kwargs : Dict :=
  [("N0", Pyv.ptuple [Pyv.pint 100, Pyv.pint 1, Pyv.pint 0]),
   ("T", Pyv.pint 100),
   ("dt", Pyv.pfloat (1/10))]

/-- Python `sum` over the accumulated value: `acc + e` with `0` as the start
value; adding a non-numeric value raises `TypeError`, exactly as `sum(N0)`
does on line 65 of `SIR.py`. -/
def pySumAux : List Pyv → Rat → Except PyErr Rat
  | [], acc => .ok acc
  | e :: rest, acc =>
    match toRat e with
    | some q => pySumAux rest (acc + q)
    | none => .error .typeError

/-- Python `sum(l)`, starting from `0`. -/
def pySum (l : List Pyv) : Except PyErr Rat :=
  pySumAux l 0

/-- Python `int(q)`: truncation toward zero. -/
def pyTrunc (q : Rat) : Int :=
  if 0 ≤ q then ⌊q⌋ else ⌈q⌉

/-- Python `int(a / b)`: true division, raising `ZeroDivisionError` when the
divisor is zero, then truncation toward zero. -/
def pyIntDiv (a b : Rat) : Except PyErr Int :=
  if b = 0 then .error .zeroDivisionError else .ok (pyTrunc (a / b))

/-- The point grid of `np.linspace a b n`: `n` evenly spaced points
`a + i * (b - a) / (n - 1)`.  For `n = 1` the rational division by zero
yields `[a]`, matching numpy, and `n = 0` yields the empty grid. -/
def linspaceQ (a b : Rat) (n : Nat) : List Rat :=
  (List.range n).map (fun i : Nat => a + (i : Rat) * ((b - a) / ((n : Rat) - 1)))

/-- Full `np.linspace a b n` for a possibly negative requested sample count `n`:
numpy raises `ValueError` when `n < 0`. -/
def pyLinspace (a b : Rat) (n : Int) : Except PyErr (List Rat) :=
  if n < 0 then .error .valueError else .ok (linspaceQ a b n.toNat)

/-- The vector field `SIR.__call__` (lines 44-48 of `SIR.py`): unpack
`S, I, R = u`, recompute `N = sum(u)` and return
`(-beta*S*I/N, beta*S*I/N - gamma*I, gamma*I)`; a zero total raises
`ZeroDivisionError`.  The time argument `t` is accepted and unused, exactly
as in the source. -/
def SIR.call (beta gamma : Rat) (u : Rat × Rat × Rat) (t : Rat) :
    Except PyErr (Rat × Rat × Rat) :=
  if u.1 + u.2.1 + u.2.2 = 0 then .error .zeroDivisionError
  else
    .ok (-beta * u.1 * u.2.1 / (u.1 + u.2.1 + u.2.2),
      beta * u.1 * u.2.1 / (u.1 + u.2.1 + u.2.2) - gamma * u.2.1,
      gamma * u.2.1)

/-- The element loop of `SIR.solve` (lines 55-57): `ValueError` on the first
non-numeric element. -/
def checkElems : List Pyv → Except PyErr Unit
  | [] => .ok ()
  | e :: rest => if isNum e then checkElems rest else .error .valueError

/-- The argument validation of `SIR.solve` (lines 52-60 of `SIR.py`): `u0`
must be a list or tuple (`TypeError`), each element of `u0` must be an int
or float (`ValueError` at the first offender), and `t` must be an int, a
float or an ndarray (`TypeError`).  The subsequent `odeint` invocation is
modelled separately by `odeintSpec`. -/
def SIR.solveChecks (u0 : Pyv) (t : Pyv) : Except PyErr Unit :=
  if isSeq u0 then
    match checkElems (seqElems u0) with
    | .error e => .error e
    | .ok _ =>
      if isNum t || isNdarray t then .ok () else .error .typeError
  else .error .typeError

/-- The validated data of a constructed `SIR` instance, up to the point where
the external integrator is invoked: rate parameters, the raw `N0`, the total
population `sum(N0)`, the requested sample count `int(T / dt)`, the time
grid, and the time horizon and step. -/
structure SIRData where
  beta : Rat
  gamma : Rat
  N0 : Pyv
  total : Rat
  n : Int
  grid : List Rat
  T : Rat
  dt : Rat

/-- The configuration validation of `SIR.__init__` (lines 24-36 of
`SIR.py`): merge the keyword arguments over `default_kwargs`, require `N0`
to be a tuple or list (`TypeError`), `T` and `dt` to be numeric
(`TypeError`), and `dt <= T` (`ValueError` when `dt > T`).  On success it
hands the merged values to `_calculate`. -/
def SIR.validate (kwargs : Dict) : Except PyErr (Pyv × Rat × Rat) :=
  match dictGet (dictMerge default_kwargs kwargs) "N0",
    dictGet (dictMerge default_kwargs kwargs) "T",
    dictGet (dictMerge default_kwargs kwargs) "dt" with
  | some n0, some tv, some dv =>
    if isSeq n0 then
      match toRat tv with
      | none => .error .typeError
      | some tq =>
        match toRat dv with
        | none => .error .typeError
        | some dq =>
          if tq < dq then .error .valueError
          else .ok (n0, tq, dq)
    else .error .typeError
  | _, _, _ => .error .keyError

/-- Model of `SIR._calculate` up to the integrator call (lines 64-67 of `SIR.py`):
`total = sum(N0)` (a `TypeError` on a non-numeric element), the grid
`np.linspace(0, T, int(T / dt))` (a `ZeroDivisionError` for `dt == 0` and a
`ValueError` from numpy for a negative sample count), and the argument
checks of `solve(N0, t)`.  The numerical output of `odeint` itself is
modelled by `odeintSpec`. -/
def SIR.calculate (beta gamma : Rat) (n0 : Pyv) (tq dq : Rat) :
    Except PyErr SIRData :=
  match pySum (seqElems n0) with
  | .error e => .error e
  | .ok total =>
    match pyIntDiv tq dq with
    | .error e => .error e
    | .ok n =>
      match pyLinspace 0 tq n with
      | .error e => .error e
      | .ok grid =>
        match SIR.solveChecks n0 (Pyv.pndarray grid) with
        | .error e => .error e
        | .ok _ => .ok ⟨beta, gamma, n0, total, n, grid, tq, dq⟩

/-- Model of `SIR.__init__` (lines 19-42 of `SIR.py`): configuration validation
followed by `_calculate`, stopping right before the external integrator is
invoked. -/
def SIR.init (beta gamma : Rat) (kwargs : Dict) : Except PyErr SIRData :=
  match SIR.validate kwargs with
  | .error e => .error e
  | .ok (n0, tq, dq) => SIR.calculate beta gamma n0 tq dq

/-- The SIR vector field, the mathematical content of `SIR.__call__`
(lines 44-48 of `SIR.py`): for a state `u = (S, I, R)` the three rates
`(-beta*S*I/N, beta*S*I/N - gamma*I, gamma*I)` with `N = S + I + R`
recomputed from the current state.  Stated over any field so that it can be
instantiated at the reals in the integrator model. -/
def sirField {K : Type} [Field K] (beta gamma : K) (u : K × K × K) :
    K × K × K :=
  (-beta * u.1 * u.2.1 / (u.1 + u.2.1 + u.2.2),
    beta * u.1 * u.2.1 / (u.1 + u.2.1 + u.2.2) - gamma * u.2.1,
    gamma * u.2.1)

/-- Modelled from the spec: the integration contract of `solve`
(`scipy.integrate.odeint`, which is external library code, not code of this
module).  Per the spec the solver integrates the model's derivative from
`t = 0` over the time span; `u` is the resulting solution: it starts at the
initial state and satisfies the SIR differential equations on `[0, T]`. -/
def IsSIRSolution (beta gamma T : ℝ) (u0 : ℝ × ℝ × ℝ) (u : ℝ → ℝ × ℝ × ℝ) :
    Prop :=
  0 ≤ T ∧ u 0 = u0 ∧
    ∀ t ∈ Set.Icc (0 : ℝ) T,
      HasDerivAt (fun s => (u s).1) (sirField beta gamma (u t)).1 t ∧
        HasDerivAt (fun s => (u s).2.1) (sirField beta gamma (u t)).2.1 t ∧
          HasDerivAt (fun s => (u s).2.2) (sirField beta gamma (u t)).2.2 t

/-- Modelled from the spec: the trajectory returned by
`scipy.integrate.odeint` (external library code), idealized as exact
sampling of a solution of the initial value problem: one state row per
requested time point, the time points lying in the integration span. -/
def odeintSpec (beta gamma T : ℝ) (u0 : ℝ × ℝ × ℝ) (grid : List ℝ)
    (traj : List (ℝ × ℝ × ℝ)) : Prop :=
  (∀ t ∈ grid, t ∈ Set.Icc (0 : ℝ) T) ∧
    ∃ u, IsSIRSolution beta gamma T u0 u ∧ traj = grid.map u

/-- From the spec's words in C6 (for refinement comparison only): an
"ordered sequence of numbers" among the modelled Python values: a tuple, a
list or an ndarray all of whose elements are numeric. -/
def isOrderedNumSeq : Pyv → Bool
  | .ptuple l => l.all isNum
  | .plist l => l.all isNum
  | .pndarray _ => true
  | _ => false

lemma key_N0_ne_T : ("N0" : String) ≠ "T" := by decide

lemma key_N0_ne_dt : ("N0" : String) ≠ "dt" := by decide

lemma key_T_ne_N0 : ("T" : String) ≠ "N0" := by decide

lemma key_T_ne_dt : ("T" : String) ≠ "dt" := by decide

lemma key_dt_ne_N0 : ("dt" : String) ≠ "N0" := by decide

lemma key_dt_ne_T : ("dt" : String) ≠ "T" := by decide

example : pySum [Pyv.pint 100, Pyv.pint 1, Pyv.pint 0] = .ok 101 := by
  simp [pySum, pySumAux, toRat]
  norm_num

example : SIR.init (3/10) (1/10)
    [("N0", Pyv.ptuple [Pyv.pint 100, Pyv.pstr "x", Pyv.pint 0])] =
    .error .typeError := by
  norm_num [SIR.init, SIR.validate, SIR.calculate, dictGet, dictMerge, dictSet,
    default_kwargs, isSeq, toRat, pySum, pySumAux, seqElems,
    key_N0_ne_T, key_N0_ne_dt, key_T_ne_N0, key_T_ne_dt, key_dt_ne_N0,
    key_dt_ne_T]

example : SIR.solveChecks (Pyv.ptuple [Pyv.pint 1]) (Pyv.plist [Pyv.pint 0]) =
    .error .typeError := by
  simp [SIR.solveChecks, checkElems, isSeq, isNum, isNdarray, seqElems]

example : (SIR.init (3/10) (1/10)
    [("N0", Pyv.ptuple [Pyv.pint 1, Pyv.pint 2]),
     ("T", Pyv.pint 1), ("dt", Pyv.pint 1)]).isOk = true := by
  norm_num [SIR.init, SIR.validate, SIR.calculate, dictGet, dictMerge, dictSet,
    default_kwargs, isSeq, toRat, pySum, pySumAux, seqElems, pyIntDiv,
    pyTrunc, pyLinspace, linspaceQ, SIR.solveChecks, checkElems, isNum,
    isNdarray, Except.isOk, Except.toBool,
    key_N0_ne_T, key_N0_ne_dt, key_T_ne_N0, key_T_ne_dt, key_dt_ne_N0,
    key_dt_ne_T]

/-- C1: for every state `(S, I, R)` with nonzero total and every time `t`,
`SIR.__call__` returns exactly
`(-beta*S*I/N, beta*S*I/N - gamma*I, gamma*I)` with `N = S + I + R`
recomputed from the current state, and the result does not depend on `t`. -/
theorem call_eval (beta gamma S I R t t' : Rat) (hN : S + I + R ≠ 0) :
    SIR.call beta gamma (S, I, R) t =
      .ok (-beta * S * I / (S + I + R),
        beta * S * I / (S + I + R) - gamma * I, gamma * I) ∧
    SIR.call beta gamma (S, I, R) t = SIR.call beta gamma (S, I, R) t' := by
  constructor
  · simp only [SIR.call, if_neg hN]
  · rfl

/-- Witness for C1 at `beta = 1`, `gamma = 1`, state `(1, 1, 0)`, times `0`
and `5`. -/
theorem call_eval_witness :
    SIR.call 1 1 (1, 1, 0) 0 =
      .ok (-1 * 1 * 1 / (1 + 1 + 0), 1 * 1 * 1 / (1 + 1 + 0) - 1 * 1, 1 * 1) ∧
    SIR.call 1 1 (1, 1, 0) 0 = SIR.call 1 1 (1, 1, 0) 5 :=
  call_eval 1 1 1 1 0 0 5 (by norm_num)

/-- C7: evaluating the vector field on a state with zero total population
fails with the `ZeroDivisionError`-kind error, and under the precondition
`S + I + R ≠ 0` the failure branch is unreachable: the evaluation is total
(returns a value). -/
theorem call_zero_total (beta gamma S I R t : Rat) :
    (S + I + R = 0 →
      SIR.call beta gamma (S, I, R) t = .error .zeroDivisionError) ∧
    (S + I + R ≠ 0 → ∃ v, SIR.call beta gamma (S, I, R) t = .ok v) := by
  constructor
  · intro h
    simp only [SIR.call, if_pos h]
  · intro h
    refine ⟨(-beta * S * I / (S + I + R),
      beta * S * I / (S + I + R) - gamma * I, gamma * I), ?_⟩
    simp only [SIR.call, if_neg h]

/-- Witness for C7: the all-zero state fails with the division-by-zero
error, and a state with total `2` evaluates to a value. -/
theorem call_zero_total_witness :
    SIR.call 1 1 (0, 0, 0) 0 = .error .zeroDivisionError ∧
    ∃ v, SIR.call 1 1 (1, 1, 0) 0 = .ok v :=
  ⟨(call_zero_total 1 1 0 0 0 0).1 (by norm_num),
    (call_zero_total 1 1 1 1 0 0).2 (by norm_num)⟩

/-- Along any solution of the SIR equations the total population
`S + I + R` is constant on the integration span: the three components of the
vector field sum to zero, so the total has derivative zero. -/
lemma sirSolution_sum_const (beta gamma T : ℝ) (u0 : ℝ × ℝ × ℝ)
    (u : ℝ → ℝ × ℝ × ℝ) (h : IsSIRSolution beta gamma T u0 u) :
    ∀ t ∈ Set.Icc (0 : ℝ) T,
      (u t).1 + (u t).2.1 + (u t).2.2 = u0.1 + u0.2.1 + u0.2.2 := by
  obtain ⟨hT, hu0, hder⟩ := h
  have hNder : ∀ t ∈ Set.Icc (0 : ℝ) T,
      HasDerivAt (fun s => (u s).1 + (u s).2.1 + (u s).2.2) 0 t := by
    intro t ht
    obtain ⟨h1, h2, h3⟩ := hder t ht
    have hsum := (h1.add h2).add h3
    have hzero : (sirField beta gamma (u t)).1 + (sirField beta gamma (u t)).2.1
        + (sirField beta gamma (u t)).2.2 = 0 := by
      simp only [sirField]
      ring
    rw [hzero] at hsum
    exact hsum
  have hcont : ContinuousOn (fun s => (u s).1 + (u s).2.1 + (u s).2.2)
      (Set.Icc 0 T) := fun t ht =>
    ((hNder t ht).continuousAt).continuousWithinAt
  have hconst := constant_of_has_deriv_right_zero hcont
    (fun x hx => ((hNder x (Set.mem_Icc_of_Ico hx)).hasDerivWithinAt))
  intro t ht
  have h0 := hconst t ht
  rw [hu0] at h0
  exact h0

/-- C2: every row `(S, I, R)` of a trajectory produced by the integrator
satisfies `S + I + R = sum(N0)` exactly, hence in particular within the
`1e-6` relative tolerance: the total population is conserved along the whole
trajectory. -/
theorem trajectory_conservation (beta gamma T : ℝ) (u0 : ℝ × ℝ × ℝ)
    (grid : List ℝ) (traj : List (ℝ × ℝ × ℝ))
    (hspec : odeintSpec beta gamma T u0 grid traj) (row : ℝ × ℝ × ℝ)
    (hrow : row ∈ traj) :
    row.1 + row.2.1 + row.2.2 = u0.1 + u0.2.1 + u0.2.2 ∧
    |row.1 + row.2.1 + row.2.2 - (u0.1 + u0.2.1 + u0.2.2)| ≤
      (1 / 1000000) * |u0.1 + u0.2.1 + u0.2.2| := by
  obtain ⟨hin, u, hsol, htraj⟩ := hspec
  subst htraj
  obtain ⟨t, ht, hut⟩ := List.mem_map.mp hrow
  have hconst := sirSolution_sum_const beta gamma T u0 u hsol t (hin t ht)
  rw [hut] at hconst
  refine ⟨hconst, ?_⟩
  rw [hconst, sub_self, abs_zero]
  positivity

/-- Witness for C2: the constant solution at rates `beta = gamma = 0`,
initial state `(1, 1, 1)`, horizon `T = 0`, grid `[0]`. -/
theorem trajectory_conservation_witness :
    (1 : ℝ) + 1 + 1 = 1 + 1 + 1 ∧
    |(1 : ℝ) + 1 + 1 - (1 + 1 + 1)| ≤ (1 / 1000000) * |(1 : ℝ) + 1 + 1| := by
  have hspec : odeintSpec 0 0 0 ((1 : ℝ), (1 : ℝ), (1 : ℝ)) [0] [(1, 1, 1)] := by
    refine ⟨fun t ht => ?_, fun _ => (1, 1, 1), ⟨le_refl 0, rfl, ?_⟩, rfl⟩
    · simp only [List.mem_singleton] at ht
      simp [ht]
    · intro t ht
      refine ⟨?_, ?_, ?_⟩ <;>
      · have h0 : (sirField (0 : ℝ) 0 ((1 : ℝ), (1 : ℝ), (1 : ℝ))) = (0, 0, 0) := by
          simp [sirField]
        rw [h0]
        exact hasDerivAt_const t 1
  exact trajectory_conservation 0 0 0 (1, 1, 1) [0] [(1, 1, 1)] hspec (1, 1, 1)
    (List.mem_singleton.mpr rfl)

/-- Along any solution of the SIR equations started at a valid compartment
state with a positive infected count, the infected count stays strictly
positive on the whole integration span.  The infected equation is linear in
`I` with a coefficient that is bounded on the compact span, so
`I(t) * exp(K*t)` is monotone for a suitable bound `K` and can never reach
zero. -/
lemma sirSolution_I_pos (beta gamma T S0 I0 R0 : ℝ) (u : ℝ → ℝ × ℝ × ℝ)
    (h : IsSIRSolution beta gamma T (S0, I0, R0) u)
    (hS0 : 0 ≤ S0) (hI0 : 0 < I0) (hR0 : 0 ≤ R0) :
    ∀ t ∈ Set.Icc (0 : ℝ) T, 0 < (u t).2.1 := by
  have hNtot := sirSolution_sum_const beta gamma T (S0, I0, R0) u h
  obtain ⟨hT, hu0, hder⟩ := h
  have hNpos : 0 < S0 + I0 + R0 := by linarith
  have hScont : ContinuousOn (fun s => (u s).1) (Set.Icc 0 T) := fun t ht =>
    ((hder t ht).1.continuousAt).continuousWithinAt
  have hIcont : ContinuousOn (fun s => (u s).2.1) (Set.Icc 0 T) := fun t ht =>
    ((hder t ht).2.1.continuousAt).continuousWithinAt
  have hccont : ContinuousOn
      (fun s => beta * (u s).1 / (S0 + I0 + R0) - gamma) (Set.Icc 0 T) :=
    ((continuousOn_const.mul hScont).div_const (S0 + I0 + R0)).sub
      continuousOn_const
  obtain ⟨K, hK⟩ := isCompact_Icc.exists_bound_of_continuousOn hccont
  have hIder : ∀ t ∈ Set.Icc (0 : ℝ) T,
      HasDerivAt (fun s => (u s).2.1)
        ((beta * (u t).1 / (S0 + I0 + R0) - gamma) * (u t).2.1) t := by
    intro t ht
    have h2 := (hder t ht).2.1
    have heq : (sirField beta gamma (u t)).2.1 =
        (beta * (u t).1 / (S0 + I0 + R0) - gamma) * (u t).2.1 := by
      simp only [sirField]
      rw [hNtot t ht]
      ring
    rwa [heq] at h2
  have hexpder : ∀ x : ℝ,
      HasDerivAt (fun s => Real.exp (K * s)) (Real.exp (K * x) * K) x := by
    intro x
    have h1 : HasDerivAt (fun s : ℝ => K * s) K x := by
      simpa using (hasDerivAt_id x).const_mul K
    exact h1.exp
  by_contra hcon
  push_neg at hcon
  obtain ⟨t₁, ht₁, hI₁⟩ := hcon
  have hZclosed : IsClosed (Set.Icc (0 : ℝ) T ∩
      Set.preimage (fun s => (u s).2.1) (Set.Iic 0)) :=
    hIcont.preimage_isClosed_of_isClosed isClosed_Icc isClosed_Iic
  have hZne : (Set.Icc (0 : ℝ) T ∩
      Set.preimage (fun s => (u s).2.1) (Set.Iic 0)).Nonempty := ⟨t₁, ht₁, hI₁⟩
  have hZbdd : BddBelow (Set.Icc (0 : ℝ) T ∩
      Set.preimage (fun s => (u s).2.1) (Set.Iic 0)) :=
    ⟨0, fun z hz => hz.1.1⟩
  have ht₀Z := hZclosed.csInf_mem hZne hZbdd
  obtain ⟨ht₀Icc, hIt₀⟩ := ht₀Z
  have hI00 : (u 0).2.1 = I0 := by rw [hu0]
  have ht₀pos : 0 < sInf (Set.Icc (0 : ℝ) T ∩
      Set.preimage (fun s => (u s).2.1) (Set.Iic 0)) := by
    rcases (ht₀Icc.1).lt_or_eq with hlt | heq
    · exact hlt
    · exfalso
      rw [← heq] at hIt₀
      have : (0:ℝ) < (u 0).2.1 := by rw [hI00]; exact hI0
      have hle : (u 0).2.1 ≤ 0 := hIt₀
      linarith
  have hIposlt : ∀ x : ℝ, 0 ≤ x →
      x < sInf (Set.Icc (0 : ℝ) T ∩
        Set.preimage (fun s => (u s).2.1) (Set.Iic 0)) → 0 < (u x).2.1 := by
    intro x hx0 hxt
    by_contra hle
    push_neg at hle
    have hxIcc : x ∈ Set.Icc (0 : ℝ) T := ⟨hx0, hxt.le.trans ht₀Icc.2⟩
    have hxZ : x ∈ Set.Icc (0 : ℝ) T ∩
        Set.preimage (fun s => (u s).2.1) (Set.Iic 0) := ⟨hxIcc, hle⟩
    have := csInf_le hZbdd hxZ
    linarith
  set t₀ := sInf (Set.Icc (0 : ℝ) T ∩
    Set.preimage (fun s => (u s).2.1) (Set.Iic 0)) with ht₀def
  have hψmono : MonotoneOn (fun s => (u s).2.1 * Real.exp (K * s))
      (Set.Icc 0 t₀) := by
    apply monotoneOn_of_deriv_nonneg (convex_Icc 0 t₀)
    · exact (hIcont.mono (Set.Icc_subset_Icc_right ht₀Icc.2)).mul
        (Real.continuous_exp.comp (continuous_const.mul continuous_id)).continuousOn
    · rw [interior_Icc]
      intro x hx
      have hxIcc : x ∈ Set.Icc (0 : ℝ) T := ⟨hx.1.le, hx.2.le.trans ht₀Icc.2⟩
      exact (((hIder x hxIcc).mul (hexpder x)).differentiableAt).differentiableWithinAt
    · rw [interior_Icc]
      intro x hx
      have hxIcc : x ∈ Set.Icc (0 : ℝ) T := ⟨hx.1.le, hx.2.le.trans ht₀Icc.2⟩
      have hd := (hIder x hxIcc).mul (hexpder x)
      rw [hd.deriv]
      have hIx : 0 < (u x).2.1 := hIposlt x hx.1.le hx.2
      have hcK : 0 ≤ (beta * (u x).1 / (S0 + I0 + R0) - gamma) + K := by
        have habs := hK x hxIcc
        rw [Real.norm_eq_abs] at habs
        have := neg_le_of_abs_le habs
        linarith
      have hrw : (beta * (u x).1 / (S0 + I0 + R0) - gamma) * (u x).2.1 *
          Real.exp (K * x) + (u x).2.1 * (Real.exp (K * x) * K) =
          ((beta * (u x).1 / (S0 + I0 + R0) - gamma) + K) * (u x).2.1 *
            Real.exp (K * x) := by ring
      rw [hrw]
      exact mul_nonneg (mul_nonneg hcK hIx.le) (Real.exp_pos (K * x)).le
  have h0mem : (0:ℝ) ∈ Set.Icc (0:ℝ) t₀ := ⟨le_refl 0, ht₀pos.le⟩
  have ht₀mem : t₀ ∈ Set.Icc (0:ℝ) t₀ := ⟨ht₀pos.le, le_refl t₀⟩
  have hmono := hψmono h0mem ht₀mem ht₀pos.le
  have hψ0 : (u 0).2.1 * Real.exp (K * 0) = I0 := by
    rw [hI00]
    simp
  have hψt₀ : (u t₀).2.1 * Real.exp (K * t₀) ≤ 0 :=
    mul_nonpos_iff.mpr (Or.inr ⟨hIt₀, (Real.exp_pos (K * t₀)).le⟩)
  have hfinal : (u 0).2.1 * Real.exp (K * 0) ≤
      (u t₀).2.1 * Real.exp (K * t₀) := hmono
  rw [hψ0] at hfinal
  linarith

/-- Along any solution of the SIR equations started at a valid compartment
state with positive infected count and nonnegative recovery rate, the
recovered count is monotone nondecreasing on the integration span:
`dR/dt = gamma * I ≥ 0`. -/
lemma sirSolution_R_mono (beta gamma T S0 I0 R0 : ℝ) (u : ℝ → ℝ × ℝ × ℝ)
    (h : IsSIRSolution beta gamma T (S0, I0, R0) u) (hgamma : 0 ≤ gamma)
    (hS0 : 0 ≤ S0) (hI0 : 0 < I0) (hR0 : 0 ≤ R0) :
    MonotoneOn (fun s => (u s).2.2) (Set.Icc 0 T) := by
  have hIpos := sirSolution_I_pos beta gamma T S0 I0 R0 u h hS0 hI0 hR0
  obtain ⟨hT, hu0, hder⟩ := h
  apply monotoneOn_of_deriv_nonneg (convex_Icc 0 T)
  · exact fun t ht => ((hder t ht).2.2.continuousAt).continuousWithinAt
  · rw [interior_Icc]
    intro x hx
    have hxIcc : x ∈ Set.Icc (0 : ℝ) T := ⟨hx.1.le, hx.2.le⟩
    exact ((hder x hxIcc).2.2.differentiableAt).differentiableWithinAt
  · rw [interior_Icc]
    intro x hx
    have hxIcc : x ∈ Set.Icc (0 : ℝ) T := ⟨hx.1.le, hx.2.le⟩
    rw [(hder x hxIcc).2.2.deriv]
    have : (sirField beta gamma (u x)).2.2 = gamma * (u x).2.1 := rfl
    rw [this]
    exact mul_nonneg hgamma (hIpos x hxIcc).le

/-- C8: for positive rates and a valid initial state with a positive
infected count, `R` is nondecreasing along the rows of the trajectory taken
over a sorted time grid, `dR/dt = gamma * I` is nonnegative everywhere on
the integration span of any solution, and in particular the third component
of the vector field is `gamma * I`, nonnegative whenever `I ≥ 0`. -/
theorem monotonic_recovery (beta gamma T S0 I0 R0 : ℝ) (grid : List ℝ)
    (traj : List (ℝ × ℝ × ℝ)) (hbeta : 0 < beta) (hgamma : 0 < gamma)
    (hS0 : 0 ≤ S0) (hI0 : 0 < I0) (hR0 : 0 ≤ R0)
    (hsorted : List.Sorted (· ≤ ·) grid)
    (hspec : odeintSpec beta gamma T (S0, I0, R0) grid traj) :
    List.Pairwise (fun p q : ℝ × ℝ × ℝ => p.2.2 ≤ q.2.2) traj ∧
    (∀ u, IsSIRSolution beta gamma T (S0, I0, R0) u →
      ∀ t ∈ Set.Icc (0 : ℝ) T, 0 ≤ (sirField beta gamma (u t)).2.2) ∧
    (∀ S I R : ℝ, 0 ≤ I → (sirField beta gamma (S, I, R)).2.2 = gamma * I ∧
      0 ≤ (sirField beta gamma (S, I, R)).2.2) := by
  refine ⟨?_, ?_, ?_⟩
  · obtain ⟨hin, u, hsol, htraj⟩ := hspec
    subst htraj
    have hRmono := sirSolution_R_mono beta gamma T S0 I0 R0 u hsol hgamma.le
      hS0 hI0 hR0
    rw [List.pairwise_map]
    refine List.Pairwise.imp_of_mem ?_ hsorted
    intro a b ha hb hab
    exact hRmono (hin a ha) (hin b hb) hab
  · intro u hsol t ht
    have hIpos := sirSolution_I_pos beta gamma T S0 I0 R0 u hsol hS0 hI0 hR0
    have : (sirField beta gamma (u t)).2.2 = gamma * (u t).2.1 := rfl
    rw [this]
    exact mul_nonneg hgamma.le (hIpos t ht).le
  · intro S I R hI
    exact ⟨rfl, mul_nonneg hgamma.le hI⟩

/-- The explicit decay solution used as a witness for C8: no susceptibles,
the infected decay exponentially into the recovered compartment. -/
lemma decaySol_isSolution : IsSIRSolution 1 1 1 ((0 : ℝ), (1 : ℝ), (0 : ℝ))
    (fun t => ((0 : ℝ), Real.exp (-t), 1 - Real.exp (-t))) := by
  refine ⟨zero_le_one, ?_, ?_⟩
  · simp
  · intro t ht
    have hexp : HasDerivAt (fun s : ℝ => Real.exp (-s))
        (Real.exp (-t) * (-1)) t := ((hasDerivAt_id t).neg).exp
    refine ⟨?_, ?_, ?_⟩
    · have h1 : (sirField (1:ℝ) 1
          ((0 : ℝ), Real.exp (-t), 1 - Real.exp (-t))).1 = 0 := by
        simp [sirField]
      rw [h1]
      exact hasDerivAt_const t 0
    · have h2 : (sirField (1:ℝ) 1
          ((0 : ℝ), Real.exp (-t), 1 - Real.exp (-t))).2.1 =
          Real.exp (-t) * (-1) := by
        simp [sirField]
      rw [h2]
      exact hexp
    · have h3 : (sirField (1:ℝ) 1
          ((0 : ℝ), Real.exp (-t), 1 - Real.exp (-t))).2.2 =
          0 - Real.exp (-t) * (-1) := by
        simp [sirField]
      rw [h3]
      exact (hasDerivAt_const t (1 : ℝ)).sub hexp

/-- Witness for C8 along the explicit decay solution on the grid `[0, 1]`:
the recovered component is nondecreasing along the two trajectory rows. -/
theorem monotonic_recovery_witness :
    List.Pairwise (fun p q : ℝ × ℝ × ℝ => p.2.2 ≤ q.2.2)
      [((0 : ℝ), (1 : ℝ), (0 : ℝ)),
        ((0 : ℝ), Real.exp (-1), 1 - Real.exp (-1))] := by
  have hspec : odeintSpec 1 1 1 ((0 : ℝ), (1 : ℝ), (0 : ℝ)) [0, 1]
      [((0 : ℝ), (1 : ℝ), (0 : ℝ)),
        ((0 : ℝ), Real.exp (-1), 1 - Real.exp (-1))] := by
    refine ⟨?_, fun t => ((0 : ℝ), Real.exp (-t), 1 - Real.exp (-t)),
      decaySol_isSolution, ?_⟩
    · intro t ht
      simp only [List.mem_cons, List.mem_singleton, List.not_mem_nil,
        or_false] at ht
      rcases ht with rfl | rfl
      · exact ⟨le_refl 0, zero_le_one⟩
      · exact ⟨zero_le_one, le_refl 1⟩
    · simp
  exact (monotonic_recovery 1 1 1 0 1 0 [0, 1]
    [((0 : ℝ), (1 : ℝ), (0 : ℝ)), ((0 : ℝ), Real.exp (-1), 1 - Real.exp (-1))]
    one_pos one_pos (le_refl 0) one_pos (le_refl 0)
    (by norm_num [List.sorted_cons]) hspec).1

/-- C3: for every construction that succeeds (positive step, `dt <= T`), the
requested sample count `int(T / dt)` equals `floor(T / dt)`, the time grid
is a nonempty, ordered, evenly spaced sequence of that many points starting
at `0` (ending at `T` as soon as there are at least two points), and any
trajectory produced by the integrator over this grid has exactly
`floor(T / dt)` rows. -/
theorem grid_shape (Tq dtq : Rat) (n : Nat) (grid : List Rat)
    (h0 : 0 < dtq) (hdT : dtq ≤ Tq)
    (hn : (n : Int) = pyTrunc (Tq / dtq))
    (hgrid : grid = linspaceQ 0 Tq n) :
    (n : Int) = ⌊Tq / dtq⌋ ∧ 1 ≤ n ∧ grid.length = n ∧
    (∀ i, ∀ hi : i < grid.length,
      grid.get ⟨i, hi⟩ = (i : Rat) * (Tq / ((n : Rat) - 1))) ∧
    List.Sorted (· ≤ ·) grid ∧
    grid.head? = some 0 ∧
    (2 ≤ n → grid.getLast? = some Tq) ∧
    (∀ (beta gamma : ℝ) (u0 : ℝ × ℝ × ℝ) (traj : List (ℝ × ℝ × ℝ)),
      odeintSpec beta gamma (Tq : ℝ) u0 (grid.map (fun q : Rat => (q : ℝ)))
        traj → traj.length = n) := by
  have hq1 : (1 : Rat) ≤ Tq / dtq := (one_le_div h0).mpr hdT
  have hq0 : (0 : Rat) ≤ Tq / dtq := le_trans zero_le_one hq1
  have htrunc : pyTrunc (Tq / dtq) = ⌊Tq / dtq⌋ := by
    simp only [pyTrunc, if_pos hq0]
  have hfloor : (n : Int) = ⌊Tq / dtq⌋ := hn.trans htrunc
  have hn1 : 1 ≤ n := by
    have : (1 : Int) ≤ ⌊Tq / dtq⌋ := Int.le_floor.mpr (by exact_mod_cast hq1)
    omega
  have hTpos : 0 < Tq := lt_of_lt_of_le h0 hdT
  have hlen : grid.length = n := by
    rw [hgrid, linspaceQ, List.length_map, List.length_range]
  have hget : ∀ i, ∀ hi : i < grid.length,
      grid.get ⟨i, hi⟩ = (i : Rat) * (Tq / ((n : Rat) - 1)) := by
    intro i hi
    subst hgrid
    rw [List.get_eq_getElem]
    simp only [linspaceQ, List.getElem_map, List.getElem_range]
    ring
  have hstep : (0 : Rat) ≤ Tq / ((n : Rat) - 1) := by
    apply div_nonneg hTpos.le
    have : (1 : Rat) ≤ (n : Rat) := by exact_mod_cast hn1
    linarith
  refine ⟨hfloor, hn1, hlen, hget, ?_, ?_, ?_, ?_⟩
  · apply List.pairwise_iff_get.mpr
    intro i j hij
    rw [hget i i.isLt, hget j j.isLt]
    apply mul_le_mul_of_nonneg_right _ hstep
    exact_mod_cast hij.le
  · obtain ⟨m, hm⟩ : ∃ m, n = m + 1 := ⟨n - 1, by omega⟩
    subst hgrid
    rw [hm, linspaceQ, List.range_succ_eq_map, List.map_cons, List.head?_cons]
    norm_num
  · intro hn2
    have hlast : grid.getLast? = grid[grid.length - 1]? :=
      List.getLast?_eq_getElem? grid
    rw [hlast, hlen]
    have hidx : n - 1 < grid.length := by
      rw [hlen]
      omega
    rw [List.getElem?_eq_getElem hidx]
    have hval := hget (n - 1) hidx
    rw [List.get_eq_getElem] at hval
    rw [hval]
    have hcast : ((n - 1 : Nat) : Rat) = (n : Rat) - 1 := by
      have h1n : (1 : Nat) ≤ n := hn1
      push_cast [Nat.cast_sub h1n]
      ring
    rw [hcast]
    have hne : (n : Rat) - 1 ≠ 0 := by
      have h2n : (2 : Rat) ≤ (n : Rat) := by exact_mod_cast hn2
      intro hcontra
      rw [sub_eq_zero] at hcontra
      rw [hcontra] at h2n
      norm_num at h2n
    rw [mul_comm, div_mul_cancel₀ Tq hne]
  · intro beta gamma u0 traj hspec
    obtain ⟨hin, u, hsol, htraj⟩ := hspec
    rw [htraj, List.length_map, List.length_map, hlen]

/-- Witness for C3 at `T = 1`, `dt = 1`: the grid is the single point `[0]`. -/
theorem grid_shape_witness :
    (linspaceQ 0 1 1).length = 1 ∧
    List.Sorted (· ≤ ·) (linspaceQ 0 1 1) ∧
    (linspaceQ 0 1 1).head? = some 0 := by
  have h := grid_shape 1 1 1 (linspaceQ 0 1 1) one_pos (le_refl 1)
    (by norm_num [pyTrunc]) rfl
  exact ⟨h.2.2.1, h.2.2.2.2.1, h.2.2.2.2.2.1⟩

lemma dictGet_cons (a : String × Pyv) (d : Dict) (k : String) :
    dictGet (a :: d) k = if a.1 = k then some a.2 else dictGet d k := by
  by_cases h : a.1 = k
  · rw [dictGet, List.find?_cons_of_pos _ (by simp [h]), if_pos h]
    rfl
  · rw [dictGet, List.find?_cons_of_neg _ (by simp [h]), if_neg h]
    rfl

lemma dictGet_dictSet (d : Dict) (k k' : String) (v : Pyv) :
    dictGet (dictSet d k v) k' = if k' = k then some v else dictGet d k' := by
  induction d with
  | nil =>
    show dictGet [(k, v)] k' = _
    rw [dictGet_cons]
    by_cases h : k' = k
    · rw [if_pos h.symm, if_pos h]
    · rw [if_neg (fun hh => h hh.symm), if_neg h]
  | cons a d ih =>
    show dictGet (List.filter (fun p => p.1 != k) (a :: d) ++ [(k, v)]) k' = _
    rw [List.filter_cons]
    by_cases hak : a.1 = k
    · rw [if_neg (by simp [hak])]
      rw [show List.filter (fun p => p.1 != k) d ++ [(k, v)] =
        dictSet d k v from rfl, ih]
      by_cases hk' : k' = k
      · rw [if_pos hk', if_pos hk']
      · rw [if_neg hk', if_neg hk', dictGet_cons,
          if_neg (fun hh : a.1 = k' => hk' (by rw [← hh]; exact hak))]
    · rw [if_pos (by simp [hak])]
      rw [List.cons_append, dictGet_cons]
      by_cases ha' : a.1 = k'
      · have hk' : k' ≠ k := fun hh => hak (by rw [ha', hh])
        rw [if_pos ha', if_neg hk', dictGet_cons, if_pos ha']
      · rw [if_neg ha']
        rw [show List.filter (fun p => p.1 != k) d ++ [(k, v)] =
          dictSet d k v from rfl, ih]
        by_cases hk' : k' = k
        · rw [if_pos hk', if_pos hk']
        · rw [if_neg hk', if_neg hk', dictGet_cons, if_neg ha']

lemma dictGet_dictMerge_of_none (kw : Dict) :
    ∀ (d : Dict) (k : String), dictGet kw k = none →
      dictGet (dictMerge d kw) k = dictGet d k := by
  induction kw with
  | nil => intro d k _; rfl
  | cons a kw ih =>
    intro d k hnone
    rw [dictGet_cons] at hnone
    by_cases hak : a.1 = k
    · rw [if_pos hak] at hnone
      cases hnone
    · rw [if_neg hak] at hnone
      show dictGet (dictMerge (dictSet d a.1 a.2) kw) k = dictGet d k
      rw [ih (dictSet d a.1 a.2) k hnone, dictGet_dictSet,
        if_neg (fun hh => hak hh.symm)]

lemma dictGet_dictMerge_of_some (kw : Dict) :
    ∀ (d : Dict) (k : String) (v : Pyv),
      (kw.map Prod.fst).Nodup → dictGet kw k = some v →
      dictGet (dictMerge d kw) k = some v := by
  induction kw with
  | nil =>
    intro d k v _ hsome
    cases hsome
  | cons a kw ih =>
    intro d k v hnodup hsome
    rw [List.map_cons, List.nodup_cons] at hnodup
    rw [dictGet_cons] at hsome
    show dictGet (dictMerge (dictSet d a.1 a.2) kw) k = some v
    by_cases hak : a.1 = k
    · rw [if_pos hak] at hsome
      have hrest : dictGet kw k = none := by
        have hfind : List.find? (fun p => p.1 == k) kw = none := by
          rw [List.find?_eq_none]
          intro x hx
          simp only [beq_iff_eq]
          intro hxk
          exact hnodup.1
            (by rw [hak, ← hxk]; exact List.mem_map_of_mem Prod.fst hx)
        rw [dictGet, hfind]
        rfl
      rw [dictGet_dictMerge_of_none kw (dictSet d a.1 a.2) k hrest,
        dictGet_dictSet, if_pos hak.symm]
      rw [← hsome]
    · rw [if_neg hak] at hsome
      exact ih (dictSet d a.1 a.2) k v hnodup.2 hsome

lemma dictGet_dictMerge_isSome (kw : Dict) :
    ∀ (d : Dict) (k : String), (dictGet kw k).isSome →
      (dictGet (dictMerge d kw) k).isSome := by
  induction kw with
  | nil =>
    intro d k hsome
    cases hsome
  | cons a kw ih =>
    intro d k hsome
    show (dictGet (dictMerge (dictSet d a.1 a.2) kw) k).isSome
    by_cases hrest : (dictGet kw k).isSome
    · exact ih (dictSet d a.1 a.2) k hrest
    · have hnone : dictGet kw k = none := by
        cases hh : dictGet kw k
        · rfl
        · rw [hh] at hrest
          cases hrest rfl
      rw [dictGet_dictMerge_of_none kw (dictSet d a.1 a.2) k hnone,
        dictGet_dictSet]
      rw [dictGet_cons] at hsome
      by_cases hak : a.1 = k
      · rw [if_pos hak.symm]
        rfl
      · rw [if_neg hak, hnone] at hsome
        cases hsome

lemma toRat_eq_none_of_not_num (e : Pyv) (h : isNum e = false) :
    toRat e = none := by
  cases e <;> first | rfl | cases h

lemma pySumAux_typeError (l : List Pyv) :
    ∀ acc : Rat, (∃ e ∈ l, isNum e = false) →
      pySumAux l acc = .error .typeError := by
  induction l with
  | nil =>
    intro acc h
    obtain ⟨e, he, _⟩ := h
    cases he
  | cons a l ih =>
    intro acc h
    cases ha : isNum a
    · rw [pySumAux, toRat_eq_none_of_not_num a ha]
    · obtain ⟨e, he, hnum⟩ := h
      have hel : e ∈ l := by
        rcases List.mem_cons.mp he with rfl | hel
        · rw [ha] at hnum
          cases hnum
        · exact hel
      have : ∃ q, toRat a = some q := by
        cases a <;> first | exact ⟨_, rfl⟩ | cases ha
      obtain ⟨q, hq⟩ := this
      rw [pySumAux, hq]
      exact ih (acc + q) ⟨e, hel, hnum⟩

lemma checkElems_valueError (l : List Pyv) (h : ∃ e ∈ l, isNum e = false) :
    checkElems l = .error .valueError := by
  induction l with
  | nil =>
    obtain ⟨e, he, _⟩ := h
    cases he
  | cons a l ih =>
    cases ha : isNum a
    · rw [checkElems]
      simp [ha]
    · obtain ⟨e, he, hnum⟩ := h
      have hel : e ∈ l := by
        rcases List.mem_cons.mp he with rfl | hel
        · rw [ha] at hnum
          cases hnum
        · exact hel
      rw [checkElems]
      simp only [ha, if_true]
      exact ih ⟨e, hel, hnum⟩

lemma checkElems_ok (l : List Pyv) (h : ∀ e ∈ l, isNum e = true) :
    checkElems l = .ok () := by
  induction l with
  | nil => rfl
  | cons a l ih =>
    rw [checkElems]
    simp only [h a (List.mem_cons_self a l), if_true]
    exact ih (fun e he => h e (List.mem_cons_of_mem a he))

lemma merged_populated (kwargs : Dict) (k : String)
    (hk : (dictGet default_kwargs k).isSome) :
    ∃ v, dictGet (dictMerge default_kwargs kwargs) k = some v := by
  cases hg : dictGet kwargs k with
  | none =>
    rw [dictGet_dictMerge_of_none kwargs default_kwargs k hg]
    cases hd : dictGet default_kwargs k with
    | none =>
      rw [hd] at hk
      cases hk
    | some v => exact ⟨v, rfl⟩
  | some v =>
    have hs := dictGet_dictMerge_isSome kwargs default_kwargs k
      (by rw [hg]; rfl)
    cases hm : dictGet (dictMerge default_kwargs kwargs) k with
    | none =>
      rw [hm] at hs
      cases hs
    | some w => exact ⟨w, rfl⟩

lemma validate_eval (kwargs : Dict) (n0 tv dv : Pyv) (tq dq : Rat)
    (hN0 : dictGet (dictMerge default_kwargs kwargs) "N0" = some n0)
    (hT : dictGet (dictMerge default_kwargs kwargs) "T" = some tv)
    (hdt : dictGet (dictMerge default_kwargs kwargs) "dt" = some dv)
    (hseq : isSeq n0 = true)
    (htq : toRat tv = some tq) (hdq : toRat dv = some dq) :
    SIR.validate kwargs =
      if tq < dq then .error .valueError else .ok (n0, tq, dq) := by
  simp only [SIR.validate, hN0, hT, hdt, hseq, htq, hdq, if_true]

lemma validate_typeError_of_not_seq (kwargs : Dict) (n0 : Pyv)
    (hN0 : dictGet (dictMerge default_kwargs kwargs) "N0" = some n0)
    (hseq : isSeq n0 = false) :
    SIR.validate kwargs = .error .typeError := by
  obtain ⟨tv, hT⟩ := merged_populated kwargs "T" (by rfl)
  obtain ⟨dv, hdt⟩ := merged_populated kwargs "dt" (by rfl)
  simp only [SIR.validate, hN0, hT, hdt, hseq]
  simp

lemma merged_Tdt_N0 (x y : Pyv) :
    dictGet (dictMerge default_kwargs [("T", x), ("dt", y)]) "N0" =
      some (Pyv.ptuple [Pyv.pint 100, Pyv.pint 1, Pyv.pint 0]) := by
  show dictGet (dictSet (dictSet default_kwargs "T" x) "dt" y) "N0" = _
  rw [dictGet_dictSet, if_neg key_N0_ne_dt, dictGet_dictSet,
    if_neg key_N0_ne_T]
  rfl

lemma merged_Tdt_T (x y : Pyv) :
    dictGet (dictMerge default_kwargs [("T", x), ("dt", y)]) "T" = some x := by
  show dictGet (dictSet (dictSet default_kwargs "T" x) "dt" y) "T" = _
  rw [dictGet_dictSet, if_neg key_T_ne_dt, dictGet_dictSet, if_pos rfl]

lemma merged_Tdt_dt (x y : Pyv) :
    dictGet (dictMerge default_kwargs [("T", x), ("dt", y)]) "dt" = some y := by
  show dictGet (dictSet (dictSet default_kwargs "T" x) "dt" y) "dt" = _
  rw [dictGet_dictSet, if_pos rfl]

/-- C9: the keyword configuration is merged over the defaults
`{N0: (100,1,0), T: 100, dt: 0.1}` key-by-key: a caller-supplied binding
wins exactly for the keys it provides, every other key keeps its default,
and all three configuration keys are populated in the merged result. -/
theorem config_merge (kwargs : Dict)
    (hnodup : (kwargs.map Prod.fst).Nodup) :
    (∀ k v, dictGet kwargs k = some v →
      dictGet (dictMerge default_kwargs kwargs) k = some v) ∧
    (∀ k, dictGet kwargs k = none →
      dictGet (dictMerge default_kwargs kwargs) k = dictGet default_kwargs k) ∧
    (∃ v, dictGet (dictMerge default_kwargs kwargs) "N0" = some v) ∧
    (∃ v, dictGet (dictMerge default_kwargs kwargs) "T" = some v) ∧
    (∃ v, dictGet (dictMerge default_kwargs kwargs) "dt" = some v) := by
  refine ⟨?_, ?_, ?_, ?_, ?_⟩
  · intro k v h
    exact dictGet_dictMerge_of_some kwargs default_kwargs k v hnodup h
  · intro k h
    exact dictGet_dictMerge_of_none kwargs default_kwargs k h
  · exact merged_populated kwargs "N0" (by rfl)
  · exact merged_populated kwargs "T" (by rfl)
  · exact merged_populated kwargs "dt" (by rfl)

/-- Witness for C9 at the override `{T: 10}`: the caller value replaces the
default for `T`, and the untouched `dt` keeps its default `0.1`. -/
theorem config_merge_witness :
    dictGet (dictMerge default_kwargs [("T", Pyv.pint 10)]) "T" =
      some (Pyv.pint 10) ∧
    dictGet (dictMerge default_kwargs [("T", Pyv.pint 10)]) "dt" =
      some (Pyv.pfloat (1/10)) := by
  have h := config_merge [("T", Pyv.pint 10)] (by simp)
  constructor
  · exact h.1 "T" (Pyv.pint 10) (by rfl)
  · rw [h.2.1 "dt" (by rfl)]
    rfl

/-- C4 counterexample: at `N0 = "abc"`, `T = 10`, `dt = 50` construction
fails with the `TypeError`-kind error, not the `ValueError`-kind one, even
though `dt > T`: the `N0` sequence check fires before the `dt <= T` check,
so "fails with ValueError iff dt > T" is false as stated. -/
theorem validation_valueError_iff_counterexample :
    SIR.init (3/10) (1/10)
      [("N0", Pyv.pstr "abc"), ("T", Pyv.pint 10), ("dt", Pyv.pint 50)] =
      .error .typeError ∧
    PyErr.typeError ≠ PyErr.valueError ∧ ((10 : Rat) < 50) := by
  refine ⟨?_, by decide, by norm_num⟩
  have hN0 : dictGet (dictMerge default_kwargs
      [("N0", Pyv.pstr "abc"), ("T", Pyv.pint 10), ("dt", Pyv.pint 50)])
      "N0" = some (Pyv.pstr "abc") := by
    show dictGet (dictSet (dictSet (dictSet default_kwargs "N0"
      (Pyv.pstr "abc")) "T" (Pyv.pint 10)) "dt" (Pyv.pint 50)) "N0" = _
    rw [dictGet_dictSet, if_neg key_N0_ne_dt, dictGet_dictSet,
      if_neg key_N0_ne_T, dictGet_dictSet, if_pos rfl]
  have hv := validate_typeError_of_not_seq _ _ hN0 rfl
  simp only [SIR.init, hv]

/-- C4 amended: for construction calls with numeric `T` and `dt` whose
merged `N0` passes the sequence-type check, the validation stage fails with
the `ValueError`-kind error exactly when `dt > T`; when `dt <= T` that check
passes and construction proceeds to `_calculate` with the merged values; and
whenever `dt > T` the construction as a whole fails with `ValueError`. -/
theorem validation_valueError_iff (beta gamma : Rat) (kwargs : Dict)
    (n0 tv dv : Pyv) (tq dq : Rat)
    (hN0 : dictGet (dictMerge default_kwargs kwargs) "N0" = some n0)
    (hseq : isSeq n0 = true)
    (hT : dictGet (dictMerge default_kwargs kwargs) "T" = some tv)
    (hdt : dictGet (dictMerge default_kwargs kwargs) "dt" = some dv)
    (htq : toRat tv = some tq) (hdq : toRat dv = some dq) :
    (SIR.validate kwargs = .error .valueError ↔ tq < dq) ∧
    (dq ≤ tq → SIR.validate kwargs = .ok (n0, tq, dq)) ∧
    (tq < dq → SIR.init beta gamma kwargs = .error .valueError) := by
  have hval := validate_eval kwargs n0 tv dv tq dq hN0 hT hdt hseq htq hdq
  refine ⟨?_, ?_, ?_⟩
  · constructor
    · intro h
      by_contra hlt
      rw [hval, if_neg hlt] at h
      cases h
    · intro h
      rw [hval, if_pos h]
  · intro h
    rw [hval, if_neg (not_lt.mpr h)]
  · intro h
    have hv : SIR.validate kwargs = .error .valueError := by
      rw [hval, if_pos h]
    simp only [SIR.init, hv]

/-- Witness for the amended C4 at `T = 10`, `dt = 50` over the default
`N0`: validation fails with `ValueError`. -/
theorem validation_valueError_iff_witness :
    SIR.validate [("T", Pyv.pint 10), ("dt", Pyv.pint 50)] =
      .error .valueError := by
  have h := validation_valueError_iff (3/10) (1/10)
    [("T", Pyv.pint 10), ("dt", Pyv.pint 50)]
    (Pyv.ptuple [Pyv.pint 100, Pyv.pint 1, Pyv.pint 0])
    (Pyv.pint 10) (Pyv.pint 50) 10 50
    (merged_Tdt_N0 _ _) rfl (merged_Tdt_T _ _) (merged_Tdt_dt _ _)
    (by norm_num [toRat]) (by norm_num [toRat])
  exact h.1.mpr (by norm_num)

/-- C10: construction does not validate positivity of `T` or `dt`: for
every numeric `dt <= T` (including nonpositive values) the validation stage
passes with the merged values, and a construction call with `dt == 0`
passes all configuration validation and then fails with the
`ZeroDivisionError`-kind error while building the time grid
(`int(T / dt)`), not with a `ValueError`-kind configuration error. -/
theorem no_positivity_validation (beta gamma tq dq : Rat) (hdT : dq ≤ tq) :
    SIR.validate [("T", Pyv.pfloat tq), ("dt", Pyv.pfloat dq)] =
      .ok (Pyv.ptuple [Pyv.pint 100, Pyv.pint 1, Pyv.pint 0], tq, dq) ∧
    (dq = 0 →
      SIR.init beta gamma [("T", Pyv.pfloat tq), ("dt", Pyv.pfloat dq)] =
        .error .zeroDivisionError) := by
  have hval := validate_eval [("T", Pyv.pfloat tq), ("dt", Pyv.pfloat dq)]
    (Pyv.ptuple [Pyv.pint 100, Pyv.pint 1, Pyv.pint 0])
    (Pyv.pfloat tq) (Pyv.pfloat dq) tq dq
    (merged_Tdt_N0 _ _) (merged_Tdt_T _ _) (merged_Tdt_dt _ _) rfl rfl rfl
  have hok : SIR.validate [("T", Pyv.pfloat tq), ("dt", Pyv.pfloat dq)] =
      .ok (Pyv.ptuple [Pyv.pint 100, Pyv.pint 1, Pyv.pint 0], tq, dq) := by
    rw [hval, if_neg (not_lt.mpr hdT)]
  refine ⟨hok, ?_⟩
  intro h0
  have hsum : pySum (seqElems
      (Pyv.ptuple [Pyv.pint 100, Pyv.pint 1, Pyv.pint 0])) = .ok 101 := by
    norm_num [pySum, pySumAux, seqElems, toRat]
  have hdiv : pyIntDiv tq dq = .error .zeroDivisionError := by
    rw [pyIntDiv, if_pos h0]
  simp only [SIR.init, hok, SIR.calculate, pySum] at *
  simp only [SIR.init, hok, SIR.calculate, hsum, hdiv]

/-- Witness for C10 at `T = 10`, `dt = 0`: construction fails with the
division-by-zero error while building the grid. -/
theorem no_positivity_validation_witness :
    SIR.init (3/10) (1/10) [("T", Pyv.pfloat 10), ("dt", Pyv.pfloat 0)] =
      .error .zeroDivisionError :=
  (no_positivity_validation (3/10) (1/10) 10 0 (by norm_num)).2 rfl

lemma merged_N0_only_N0 (z : Pyv) :
    dictGet (dictMerge default_kwargs [("N0", z)]) "N0" = some z := by
  show dictGet (dictSet default_kwargs "N0" z) "N0" = _
  rw [dictGet_dictSet, if_pos rfl]

lemma merged_NTdt_N0 (z x y : Pyv) :
    dictGet (dictMerge default_kwargs [("N0", z), ("T", x), ("dt", y)])
      "N0" = some z := by
  show dictGet (dictSet (dictSet (dictSet default_kwargs "N0" z) "T" x)
    "dt" y) "N0" = _
  rw [dictGet_dictSet, if_neg key_N0_ne_dt, dictGet_dictSet,
    if_neg key_N0_ne_T, dictGet_dictSet, if_pos rfl]

lemma merged_NTdt_T (z x y : Pyv) :
    dictGet (dictMerge default_kwargs [("N0", z), ("T", x), ("dt", y)])
      "T" = some x := by
  show dictGet (dictSet (dictSet (dictSet default_kwargs "N0" z) "T" x)
    "dt" y) "T" = _
  rw [dictGet_dictSet, if_neg key_T_ne_dt, dictGet_dictSet, if_pos rfl]

lemma merged_NTdt_dt (z x y : Pyv) :
    dictGet (dictMerge default_kwargs [("N0", z), ("T", x), ("dt", y)])
      "dt" = some y := by
  show dictGet (dictSet (dictSet (dictSet default_kwargs "N0" z) "T" x)
    "dt" y) "dt" = _
  rw [dictGet_dictSet, if_pos rfl]

lemma merged_N0_only_T (z : Pyv) :
    dictGet (dictMerge default_kwargs [("N0", z)]) "T" =
      some (Pyv.pint 100) := by
  show dictGet (dictSet default_kwargs "N0" z) "T" = _
  rw [dictGet_dictSet, if_neg key_T_ne_N0]
  rfl

lemma merged_N0_only_dt (z : Pyv) :
    dictGet (dictMerge default_kwargs [("N0", z)]) "dt" =
      some (Pyv.pfloat (1/10)) := by
  show dictGet (dictSet default_kwargs "N0" z) "dt" = _
  rw [dictGet_dictSet, if_neg key_dt_ne_N0]
  rfl

/-- C5 counterexample: at `N0 = (100, "x", 0)` (with the default `T`, `dt`)
construction fails with the `TypeError`-kind error raised by `sum(N0)` in
`_calculate`, not with the `ValueError`-kind error of `solve`'s per-element
check, which is never reached. -/
theorem n0_element_check_counterexample :
    SIR.init (3/10) (1/10)
      [("N0", Pyv.ptuple [Pyv.pint 100, Pyv.pstr "x", Pyv.pint 0])] =
      .error .typeError ∧ PyErr.typeError ≠ PyErr.valueError := by
  refine ⟨?_, by decide⟩
  have hval := validate_eval
    [("N0", Pyv.ptuple [Pyv.pint 100, Pyv.pstr "x", Pyv.pint 0])]
    (Pyv.ptuple [Pyv.pint 100, Pyv.pstr "x", Pyv.pint 0])
    (Pyv.pint 100) (Pyv.pfloat (1/10)) 100 (1/10)
    (merged_N0_only_N0 _) (merged_N0_only_T _) (merged_N0_only_dt _)
    rfl (by norm_num [toRat]) rfl
  have hok : SIR.validate
      [("N0", Pyv.ptuple [Pyv.pint 100, Pyv.pstr "x", Pyv.pint 0])] =
      .ok (Pyv.ptuple [Pyv.pint 100, Pyv.pstr "x", Pyv.pint 0],
        100, 1/10) := by
    rw [hval, if_neg (by norm_num)]
  have hsum : pySum (seqElems
      (Pyv.ptuple [Pyv.pint 100, Pyv.pstr "x", Pyv.pint 0])) =
      .error .typeError := by
    apply pySumAux_typeError
    exact ⟨Pyv.pstr "x", by simp [seqElems], rfl⟩
  simp only [SIR.init, hok, SIR.calculate, pySum] at hsum ⊢
  simp only [hsum]

/-- C5 amended: `N0` is validated only to be a sequence type (tuple or
list) — its length is not checked at construction (a length-2 `N0` passes
every check and reaches the integrator); a non-sequence `N0` fails with the
`TypeError`-kind error at construction; and a sequence `N0` containing a
non-numeric element makes construction fail with a `TypeError`-kind error
raised at `sum(N0)` in `_calculate`, before `solve`'s per-element
`ValueError` check is reached. -/
theorem n0_validation (beta gamma : Rat) (kwargs : Dict) (n0 tv dv : Pyv)
    (tq dq : Rat) :
    (dictGet (dictMerge default_kwargs kwargs) "N0" = some n0 →
      isSeq n0 = false → SIR.init beta gamma kwargs = .error .typeError) ∧
    (dictGet (dictMerge default_kwargs kwargs) "N0" = some n0 →
      isSeq n0 = true →
      dictGet (dictMerge default_kwargs kwargs) "T" = some tv →
      dictGet (dictMerge default_kwargs kwargs) "dt" = some dv →
      toRat tv = some tq → toRat dv = some dq → dq ≤ tq →
      (∃ e ∈ seqElems n0, isNum e = false) →
      SIR.init beta gamma kwargs = .error .typeError) ∧
    (∃ d, SIR.init (3/10) (1/10)
      [("N0", Pyv.ptuple [Pyv.pint 1, Pyv.pint 2]),
       ("T", Pyv.pint 1), ("dt", Pyv.pint 1)] = .ok d) := by
  refine ⟨?_, ?_, ?_⟩
  · intro hN0 hseq
    have hv := validate_typeError_of_not_seq kwargs n0 hN0 hseq
    simp only [SIR.init, hv]
  · intro hN0 hseq hT hdt htq hdq hle hex
    have hval := validate_eval kwargs n0 tv dv tq dq hN0 hT hdt hseq htq hdq
    have hok : SIR.validate kwargs = .ok (n0, tq, dq) := by
      rw [hval, if_neg (not_lt.mpr hle)]
    have hsum : pySum (seqElems n0) = .error .typeError :=
      pySumAux_typeError (seqElems n0) 0 hex
    simp only [SIR.init, hok, SIR.calculate, pySum] at hsum ⊢
    simp only [hsum]
  · have hisOk : (SIR.init (3/10) (1/10)
        [("N0", Pyv.ptuple [Pyv.pint 1, Pyv.pint 2]),
         ("T", Pyv.pint 1), ("dt", Pyv.pint 1)]).isOk = true := by
      have hval := validate_eval
        [("N0", Pyv.ptuple [Pyv.pint 1, Pyv.pint 2]),
         ("T", Pyv.pint 1), ("dt", Pyv.pint 1)]
        (Pyv.ptuple [Pyv.pint 1, Pyv.pint 2]) (Pyv.pint 1) (Pyv.pint 1) 1 1
        (merged_NTdt_N0 _ _ _) (merged_NTdt_T _ _ _) (merged_NTdt_dt _ _ _)
        rfl (by norm_num [toRat]) (by norm_num [toRat])
      have hok : SIR.validate
          [("N0", Pyv.ptuple [Pyv.pint 1, Pyv.pint 2]),
           ("T", Pyv.pint 1), ("dt", Pyv.pint 1)] =
          .ok (Pyv.ptuple [Pyv.pint 1, Pyv.pint 2], 1, 1) := by
        rw [hval, if_neg (by norm_num)]
      norm_num [SIR.init, hok, SIR.calculate, pySum, pySumAux, seqElems,
        toRat, pyIntDiv, pyTrunc, pyLinspace, linspaceQ, SIR.solveChecks,
        checkElems, isNum, isNdarray, isSeq, Except.isOk, Except.toBool]
    cases hinit : SIR.init (3/10) (1/10)
        [("N0", Pyv.ptuple [Pyv.pint 1, Pyv.pint 2]),
         ("T", Pyv.pint 1), ("dt", Pyv.pint 1)] with
    | error e =>
      rw [hinit] at hisOk
      simp [Except.isOk, Except.toBool] at hisOk
    | ok d => exact ⟨d, rfl⟩

/-- Witness for the amended C5: a non-sequence `N0` fails with `TypeError`
at validation, and a tuple `N0` containing `None` fails with `TypeError`
at `sum(N0)`. -/
theorem n0_validation_witness :
    SIR.init (3/10) (1/10) [("N0", Pyv.pstr "abc")] = .error .typeError ∧
    SIR.init (3/10) (1/10)
      [("N0", Pyv.ptuple [Pyv.pint 1, Pyv.pnone, Pyv.pint 2]),
       ("T", Pyv.pint 1), ("dt", Pyv.pint 1)] = .error .typeError := by
  constructor
  · exact (n0_validation (3/10) (1/10) [("N0", Pyv.pstr "abc")]
      (Pyv.pstr "abc") (Pyv.pint 100) (Pyv.pfloat (1/10)) 100 (1/10)).1
      (merged_N0_only_N0 _) rfl
  · exact (n0_validation (3/10) (1/10)
      [("N0", Pyv.ptuple [Pyv.pint 1, Pyv.pnone, Pyv.pint 2]),
       ("T", Pyv.pint 1), ("dt", Pyv.pint 1)]
      (Pyv.ptuple [Pyv.pint 1, Pyv.pnone, Pyv.pint 2])
      (Pyv.pint 1) (Pyv.pint 1) 1 1).2.1
      (merged_NTdt_N0 _ _ _) rfl (merged_NTdt_T _ _ _) (merged_NTdt_dt _ _ _)
      (by norm_num [toRat]) (by norm_num [toRat]) (le_refl 1)
      ⟨Pyv.pnone, by simp [seqElems], rfl⟩

/-- C6 counterexample: a Python list of numbers is an ordered sequence of
numbers, yet `solve` rejects it as the `time_grid` argument with the
`TypeError`-kind error: only int, float and ndarray are accepted. -/
theorem solve_time_grid_counterexample :
    isOrderedNumSeq (Pyv.plist [Pyv.pint 0, Pyv.pint 1]) = true ∧
    SIR.solveChecks (Pyv.ptuple [Pyv.pint 999, Pyv.pint 1, Pyv.pint 0])
      (Pyv.plist [Pyv.pint 0, Pyv.pint 1]) = .error .typeError :=
  ⟨rfl, rfl⟩

/-- C6 amended: `solve` fails with the `TypeError`-kind error when
`initial_state` is not a list or tuple; otherwise each element is checked
individually and it fails with the `ValueError`-kind error when some
element is non-numeric (regardless of `time_grid`); finally `time_grid`
must be a single number (int or float) or a numpy ndarray — any other
value, including list/tuple sequences of numbers, fails with the
`TypeError`-kind error. -/
theorem solve_argument_checks (u0 t : Pyv) :
    (isSeq u0 = false → SIR.solveChecks u0 t = .error .typeError) ∧
    (isSeq u0 = true → (∃ e ∈ seqElems u0, isNum e = false) →
      SIR.solveChecks u0 t = .error .valueError) ∧
    (isSeq u0 = true → (∀ e ∈ seqElems u0, isNum e = true) →
      SIR.solveChecks u0 t =
        if isNum t || isNdarray t then .ok () else .error .typeError) := by
  refine ⟨?_, ?_, ?_⟩
  · intro h
    rw [SIR.solveChecks]
    simp [h]
  · intro hseq hex
    rw [SIR.solveChecks]
    simp only [hseq, if_true]
    rw [checkElems_valueError (seqElems u0) hex]
  · intro hseq hall
    rw [SIR.solveChecks]
    simp only [hseq, if_true]
    rw [checkElems_ok (seqElems u0) hall]

/-- Witness for the amended C6: a non-sequence `initial_state` gives
`TypeError`, a non-numeric element gives `ValueError`, and numeric elements
with an ndarray `time_grid` pass. -/
theorem solve_argument_checks_witness :
    SIR.solveChecks (Pyv.pint 5) (Pyv.pint 0) = .error .typeError ∧
    SIR.solveChecks (Pyv.plist [Pyv.pstr "x"]) (Pyv.pint 0) =
      .error .valueError ∧
    SIR.solveChecks (Pyv.ptuple [Pyv.pint 1]) (Pyv.pndarray []) = .ok () := by
  refine ⟨(solve_argument_checks (Pyv.pint 5) (Pyv.pint 0)).1 rfl, ?_, ?_⟩
  · exact (solve_argument_checks (Pyv.plist [Pyv.pstr "x"])
      (Pyv.pint 0)).2.1 rfl ⟨Pyv.pstr "x", by simp [seqElems], rfl⟩
  · have h := (solve_argument_checks (Pyv.ptuple [Pyv.pint 1])
      (Pyv.pndarray [])).2.2 rfl
      (by
        intro e he
        simp only [seqElems, List.mem_singleton] at he
        rw [he]
        rfl)
    rw [h]
    rfl
